import Mathlib

/-!
Verification of the Belay.NET raw-REPL protocol engine against its observed
implementation scripts.  The scripts decode every accumulated byte buffer as
UTF-8 with lossy replacement and evaluate all completion conditions on the
decoded text, so buffers are modelled as `List Char`; the ASCII control
markers (`0x01`, `0x04`, `>`) survive that decoding unchanged.
-/

namespace BelayProtocol

/-- Python's substring test `pat in text` (the `in` operator on `str`),
as used by every completion condition in the observed read loops. -/
def containsSub (pat : List Char) : List Char → Bool
  | [] => pat.isEmpty
  | c :: rest => pat.isPrefixOf (c :: rest) || containsSub pat rest

/-- Completion condition for raw-REPL entry, from
`src/debug_csharp_protocol.py` line 24 (`read_with_timeout`):
`"raw REPL" in text and ("CTRL-B" in text or ">" in text)`. -/
def rawReplEntryComplete (buf : List Char) : Bool :=
  containsSub ("raw REPL".toList) buf &&
    (containsSub ("CTRL-B".toList) buf || containsSub (">".toList) buf)

/-- Completion condition for execution output, from
`src/debug_csharp_protocol.py` line 27 (`read_with_timeout`):
`"OK" in text and ("\x04" in text or ">" in text)`. -/
def execOutputComplete (buf : List Char) : Bool :=
  containsSub ("OK".toList) buf &&
    (containsSub ("\x04".toList) buf || containsSub (">".toList) buf)

/-- The combined break condition of the `read_with_timeout` loop in
`src/debug_csharp_protocol.py` lines 24-29: the `if`/`elif` chain breaks
when either the raw-REPL-entry branch or the execution-output branch holds. -/
def debugComplete (buf : List Char) : Bool :=
  rawReplEntryComplete buf || execOutputComplete buf

/-- Success check applied to the execution response by `test_csharp_style`
in `src/test_subprocess_fix.py` line 90:
`"OK" in result_text and "2" in result_text`. -/
def csharpStyleSuccess (result : List Char) : Bool :=
  containsSub ("OK".toList) result && containsSub ("2".toList) result

/-- The enter-raw completion predicate as the specification words it
(spec 4.2): buffer contains `raw REPL` and, in addition, either contains
`CTRL-B` or has the prompt byte `>` as its tail (last byte).  Stated for
comparison with `rawReplEntryComplete`, which is taken from the source. -/
def enterRawSpecPredicate (buf : List Char) : Prop :=
  ("raw REPL".toList) <:+: buf ∧
    (("CTRL-B".toList) <:+: buf ∨ buf.getLast? = some '>')

/-- A well-framed execution response per the spec (4.3 and 8): stdout bytes,
a first `0x04` delimiter, stderr bytes, a second `0x04` delimiter, and the
terminal prompt byte `>`, with no `OK` marker. -/
def frameResponse (out err : List Char) : List Char :=
  out ++ ['\x04'] ++ err ++ ['\x04', '>']

/-- One poll of the duplex channel inside a read loop: the
`proc.stdout.read(...)` call either returns bytes (possibly none, modelled
as `data []`) or raises an exception (`fail`), as in the `try`/`except`
bodies of `read_with_timeout` in `src/debug_csharp_protocol.py`. -/
inductive Poll where
  | data : List Char → Poll
  | fail : Poll
deriving DecidableEq, Repr

/-- Whether a poll raised an exception. -/
def isFail : Poll → Bool
  | Poll.fail => true
  | Poll.data _ => false

/-- The poll-accumulate loop of `read_with_timeout`
(`src/debug_csharp_protocol.py` lines 15-34), shared verbatim by the inline
loops of `test_duplex_approach` (`src/test_duplex_stream.py` lines 76-88)
and `test_csharp_style` (`src/test_subprocess_fix.py` lines 62-72), with the
completion condition as a parameter.  Each list element is one iteration's
poll; the finite list length is the deadline expressed in poll intervals
(the loop runs `while time.time() - start_time < timeout_seconds` and
sleeps 10 ms between polls).  A nonempty read extends the buffer and the
completion condition is checked; the loop breaks with the buffer once it
holds.  An empty read sleeps and retries; an exception is caught by the
bare `except:` which also sleeps and retries.  When the deadline elapses
the accumulated buffer is returned unconditionally — the function's only
result is a byte buffer.  Every poll in this model is a read call that
completes within the interval, which is faithful for the
completion-predicate and exception behaviour; the script leaves the channel
in blocking mode, so a read call need not complete at all — that case is
modelled by `readLoopBlocking` below. -/
def readLoop (complete : List Char → Bool) (buf : List Char) :
    List Poll → List Char
  | [] => buf
  | Poll.data d :: rest =>
    if d.isEmpty then readLoop complete buf rest
    else if complete (buf ++ d) then buf ++ d
    else readLoop complete (buf ++ d) rest
  | Poll.fail :: rest => readLoop complete buf rest

/-- `read_with_timeout` from `src/debug_csharp_protocol.py` lines 9-35:
the read loop with its hard-coded two-branch completion condition and an
initially empty buffer. -/
def read_with_timeout (polls : List Poll) : List Char :=
  readLoop debugComplete [] polls

/-- One read call on the channel as `read_with_timeout` actually issues it:
`src/debug_csharp_protocol.py` spawns the subprocess with `bufsize=0` but
never puts `proc.stdout` into non-blocking mode (unlike
`src/test_duplex_stream.py` lines 39-41), so `proc.stdout.read(256)` on an
open pipe either delivers bytes, returns empty at end-of-stream, raises, or
— when the channel is open with no data available — blocks until data
arrives, never returning control to the loop. -/
inductive BlockingPoll where
  | data : List Char → BlockingPoll
  | fail : BlockingPoll
  | block : BlockingPoll
deriving DecidableEq, Repr

/-- The bytes a completed read delivered (none for a raised exception; a
blocked read delivers nothing because it never completes). -/
def bPollData : BlockingPoll → List Char
  | BlockingPoll.data d => d
  | BlockingPoll.fail => []
  | BlockingPoll.block => []

/-- All bytes delivered by a sequence of read calls, in order. -/
def bDataOf (polls : List BlockingPoll) : List Char :=
  (polls.map bPollData).flatten

/-- The `read_with_timeout` loop over a channel whose reads may block.  The
`while time.time() - start_time < timeout_seconds` guard is evaluated only
between read calls, so a read that blocks (open channel, no data, channel
not in non-blocking mode) means the loop never reaches the guard again and
the caller is never returned to: the result is `none`.  Completed reads
behave as in `readLoop`: nonempty data extends the buffer and the
completion condition may break the loop, empty data and exceptions sleep
and retry, and an elapsed deadline returns the accumulated buffer. -/
def readLoopBlocking (complete : List Char → Bool) (buf : List Char) :
    List BlockingPoll → Option (List Char)
  | [] => some buf
  | BlockingPoll.data d :: rest =>
    if d.isEmpty then readLoopBlocking complete buf rest
    else if complete (buf ++ d) then some (buf ++ d)
    else readLoopBlocking complete (buf ++ d) rest
  | BlockingPoll.fail :: rest => readLoopBlocking complete buf rest
  | BlockingPoll.block :: _ => none

/-- The stdout slice of a framed execution response: the bytes before the
first `0x04` delimiter (spec 4.3). -/
def stdoutSlice (resp : List Char) : List Char :=
  resp.takeWhile (fun c => c != '\x04')

/-- The error-channel slice of a framed execution response: the bytes
strictly between the first and the second `0x04` delimiter (spec 4.3). -/
def stderrSlice (resp : List Char) : List Char :=
  ((resp.dropWhile (fun c => c != '\x04')).drop 1).takeWhile (fun c => c != '\x04')

/-- Error taxonomy of the classifier (spec 4.4 and 7). -/
inductive ErrorKind where
  | syntaxError
  | runtimeError
  | memoryError
  | fileSystemError
  | importError
  | interruptedError
  | timeoutError
  | unknownError
deriving DecidableEq, Repr

/-- A classified error: its kind and whether it is recoverable.  Modelled
from the spec: the human message, diagnostics mapping and remediation text
of spec 3 are carried alongside the kind and play no role in any claim, so
only the kind and the recoverable flag are modelled. -/
structure ClassifiedError where
  kind : ErrorKind
  recoverable : Bool
deriving DecidableEq, Repr

/-- Modelled from the spec: the ErrorClassifier exists only in the C#
engine, which is not among the observed scripts; spec 4.4 defines it as a
pure function on the error-channel text with anchored, first-match-wins,
ordered rules (rule 7 is engine-level, not text-level, and rule 8 catches
any other non-empty text). -/
def classifyText (text : List Char) : ClassifiedError :=
  let lines := text.splitOn '\n'
  if lines.any (fun l => ("SyntaxError".toList).isPrefixOf l) then
    ⟨ErrorKind.syntaxError, false⟩
  else if lines.any (fun l =>
      ("NameError".toList).isPrefixOf l || ("TypeError".toList).isPrefixOf l ||
      ("AttributeError".toList).isPrefixOf l ||
      ("ValueError".toList).isPrefixOf l) then
    ⟨ErrorKind.runtimeError, false⟩
  else if containsSub ("MemoryError".toList) text then
    ⟨ErrorKind.memoryError, true⟩
  else if containsSub ("OSError".toList) text ||
      containsSub ("ENOENT".toList) text then
    ⟨ErrorKind.fileSystemError, false⟩
  else if containsSub ("ImportError".toList) text ||
      containsSub ("ModuleNotFoundError".toList) text then
    ⟨ErrorKind.importError, false⟩
  else if text = ("KeyboardInterrupt".toList) then
    ⟨ErrorKind.interruptedError, true⟩
  else
    ⟨ErrorKind.unknownError, false⟩

/-- Modelled from the spec: the ExecutionEngine wiring (spec 4.3) — stderr
bytes are forwarded to the classifier only when non-empty; an empty stderr
slice yields no classified error regardless of stdout content. -/
def classifiedErrorOf (resp : List Char) : Option ClassifiedError :=
  if (stderrSlice resp).isEmpty then none
  else some (classifyText (stderrSlice resp))

/-- The deadline classes of the engine (spec 5; also listed as the
`timeout_scenarios` data of `test_error_classification` in
`src/test_error_detection.py` lines 73-81). -/
inductive TimeoutCategory where
  | prompt
  | execution
  | fileTransfer
  | softReboot
deriving DecidableEq, Repr

/-- The fixed per-category floors in milliseconds: prompt 2 s, execution
10 s, file transfer 30 s, soft reboot 15 s (spec 5;
`src/test_error_detection.py` lines 76-79). -/
def floorMs : TimeoutCategory → Nat
  | TimeoutCategory.prompt => 2000
  | TimeoutCategory.execution => 10000
  | TimeoutCategory.fileTransfer => 30000
  | TimeoutCategory.softReboot => 15000

/-- One protocol read observed in the scripts: its deadline class and the
deadline the call site actually runs with. -/
structure ObservedRead where
  category : TimeoutCategory
  deadlineMs : Nat
deriving DecidableEq, Repr

/-- The protocol reads of the observed scripts with their hard-coded
deadlines: the enter-raw read of `src/debug_csharp_protocol.py` line 89
(2000 ms), the execution read of `src/debug_csharp_protocol.py` line 99
(2000 ms), the enter-raw read of `src/test_subprocess_fix.py` line 59
(`while time.time() - start_time < 1.0`, 1000 ms), the enter-raw read of
`src/test_duplex_stream.py` line 79 (2.0 s) and the enter-raw read of
`src/test_raw_repl_flow.py` line 38 (`< 2`, 2000 ms). -/
def observedReads : List ObservedRead :=
  [⟨TimeoutCategory.prompt, 2000⟩,
   ⟨TimeoutCategory.execution, 2000⟩,
   ⟨TimeoutCategory.prompt, 1000⟩,
   ⟨TimeoutCategory.prompt, 2000⟩,
   ⟨TimeoutCategory.prompt, 2000⟩]

/-- One poll inside the best-effort drain loop `read_available`
(`src/debug_nonblocking.py` lines 32-43): the non-blocking
`proc.stdout.read(1024)` either returns a chunk (possibly empty) or raises
`BlockingIOError`. -/
inductive DrainPoll where
  | data : List Char → DrainPoll
  | wouldBlock
deriving DecidableEq, Repr

/-- Whether a drain poll delivered a nonempty chunk (the loop continues
exactly on these). -/
def liveData : DrainPoll → Bool
  | DrainPoll.data d => !d.isEmpty
  | DrainPoll.wouldBlock => false

/-- The chunk a drain poll delivered. -/
def pollChunk : DrainPoll → List Char
  | DrainPoll.data d => d
  | DrainPoll.wouldBlock => []

/-- The accumulator loop of `read_available`: `while True:` read a chunk;
an empty chunk breaks the loop (`if not chunk: break`); a `BlockingIOError`
is caught and ends the loop; otherwise the chunk is appended and the loop
continues.  The channel state is the finite queue of pending poll results;
when it is exhausted the loop has drained everything available. -/
def drainGo (acc : List Char) : List DrainPoll → List Char
  | [] => acc
  | DrainPoll.wouldBlock :: _ => acc
  | DrainPoll.data d :: rest =>
    if d.isEmpty then acc else drainGo (acc ++ d) rest

/-- `read_available` from `src/debug_nonblocking.py` lines 32-43: drain all
currently available bytes, returning the (possibly empty) accumulated data
(the source returns `""` when nothing was read, never an error). -/
def read_available (polls : List DrainPoll) : List Char :=
  drainGo [] polls

/-- Chunk-size initialization by payload size class: `≤ 256 → 64`,
`≤ 1024 → 256`, otherwise `512` (spec 4.5; mirrored by the size classes of
`test_device_simulation` in `src/quick_test.py` lines 44-57 and the
simplified adaptive logic of `src/test_hardware.py` line 70). -/
def initialChunkSize (payloadLen : Nat) : Nat :=
  if payloadLen ≤ 256 then 64
  else if payloadLen ≤ 1024 then 256
  else 512

/-- An adjustment applied to the chunk size after a completed or failed
chunk: grow on good throughput, shrink on failure or MemoryError
(spec 4.5). -/
inductive ChunkAdjust where
  | grow
  | shrink
deriving DecidableEq, Repr

/-- Modelled from the spec: the ChunkTransferManager's compare-and-adjust
step exists only in the C# engine; spec 4.5 fixes only its bounds — grow is
bounded at 512 B and shrink at 64 B.  The step factor is unspecified;
doubling and halving are chosen, and only the clamping matters for the
bounds claim. -/
def applyAdjust : ChunkAdjust → Nat → Nat
  | ChunkAdjust.grow, s => min (s * 2) 512
  | ChunkAdjust.shrink, s => max (s / 2) 64

/-- The chunk size reached from the initialization for a payload after a
sequence of post-chunk adjustments. -/
def chunkSizeAfter (payloadLen : Nat) (events : List ChunkAdjust) : Nat :=
  events.foldl (fun s e => applyAdjust e s) (initialChunkSize payloadLen)

/-- The base64 alphabet (RFC 4648), as used by `base64.b64encode` in the
transfer path simulated by `test_device_communication`
(`src/test_hardware.py` lines 63-64). -/
def b64alphabet : List Char :=
  "ABCDEFGHIJKLMNOPQRSTUVWXYZabcdefghijklmnopqrstuvwxyz0123456789+/".toList

/-- The alphabet character of a six-bit value. -/
def b64char (n : Nat) : Char :=
  b64alphabet.getD n '='

/-- The six-bit value of an alphabet character. -/
def b64val (c : Char) : Nat :=
  b64alphabet.indexOf c

/-- Standard base64 encoding of a byte sequence (bytes as naturals below
256): each group of three bytes becomes four alphabet characters; a final
group of two bytes becomes three characters and one `=` pad; a final single
byte becomes two characters and two `=` pads. -/
def b64encodeBytes : List Nat → List Char
  | [] => []
  | [a] => [b64char (a / 4), b64char (a % 4 * 16), '=', '=']
  | [a, b] => [b64char (a / 4), b64char (a % 4 * 16 + b / 16),
      b64char (b % 16 * 4), '=']
  | a :: b :: c :: rest =>
    b64char (a / 4) :: b64char (a % 4 * 16 + b / 16) ::
      b64char (b % 16 * 4 + c / 64) :: b64char (c % 64) :: b64encodeBytes rest

/-- Standard base64 decoding, the inverse direction of the transfer path:
four characters yield three bytes, with one or two `=` pads marking a final
group of two or one bytes. -/
def b64decodeChars : List Char → List Nat
  | c1 :: c2 :: c3 :: c4 :: rest =>
    if c3 = '=' then [b64val c1 * 4 + b64val c2 / 16]
    else if c4 = '=' then
      [b64val c1 * 4 + b64val c2 / 16, b64val c2 % 16 * 16 + b64val c3 / 4]
    else
      (b64val c1 * 4 + b64val c2 / 16) ::
        (b64val c2 % 16 * 16 + b64val c3 / 4) ::
        (b64val c3 % 4 * 64 + b64val c4) :: b64decodeChars rest
  | _ => []

/-- Slicing a payload at the current chunk size (spec 4.5: slice the
payload at the current chunk size; the final slice may be shorter when the
payload length is not a multiple of the chunk size). -/
def chunkPayload : Nat → List Nat → List (List Nat)
  | _, [] => []
  | 0, x :: xs => [x :: xs]
  | n + 1, x :: xs =>
    (x :: xs).take (n + 1) :: chunkPayload (n + 1) ((x :: xs).drop (n + 1))
termination_by _ l => l.length
decreasing_by
  simp [List.length_drop]
  omega

end BelayProtocol

namespace BelayProtocol

theorem containsSub_iff (pat buf : List Char) :
    containsSub pat buf = true ↔ pat <:+: buf := by
  induction buf with
  | nil =>
    simp [containsSub, List.isEmpty_iff]
  | cons c rest ih =>
    simp [containsSub, List.isPrefixOf_iff_prefix, ih, List.infix_cons_iff]

theorem singleton_infix_iff_mem (a : Char) (l : List Char) :
    [a] <:+: l ↔ a ∈ l := by
  constructor
  · intro h
    exact h.mem (List.mem_singleton_self a)
  · intro h
    obtain ⟨s, t, hst⟩ := List.append_of_mem h
    exact ⟨s, t, by rw [hst]; simp⟩

theorem containsSub_eq_false (pat buf : List Char) (h : ¬ pat <:+: buf) :
    containsSub pat buf = false := by
  cases hc : containsSub pat buf
  · rfl
  · exact absurd ((containsSub_iff pat buf).mp hc) h

/-- C1, counterexample: the buffer `"raw REPL>x"` contains `raw REPL` and a
`>` that is not the last byte, and contains no `CTRL-B`; the completion
condition of the source accepts it while the claim's tail-anchored predicate
rejects it, so the two are not equivalent. -/
theorem c1_enterRaw_tail_counterexample :
    rawReplEntryComplete ("raw REPL>x".toList) = true ∧
      ¬ enterRawSpecPredicate ("raw REPL>x".toList) := by
  constructor
  · decide
  · unfold enterRawSpecPredicate
    decide

/-- C1, amended: raw-mode entry is accepted exactly when the buffer contains
the literal substring `raw REPL` and, in addition, either contains `CTRL-B`
or contains the prompt byte `>` anywhere (not necessarily as its tail):
the completion check is a plain substring test on all three markers. -/
theorem c1_enterRaw_complete_iff (buf : List Char) :
    rawReplEntryComplete buf = true ↔
      (("raw REPL".toList) <:+: buf ∧
        (("CTRL-B".toList) <:+: buf ∨ '>' ∈ buf)) := by
  unfold rawReplEntryComplete
  simp only [Bool.and_eq_true, Bool.or_eq_true, containsSub_iff]
  rw [show (">".toList) = ['>'] from rfl, singleton_infix_iff_mem]

/-- C2, counterexample: the well-framed `OK`-less response `"2\x04\x04>"`
(stdout `2`, empty stderr, two `0x04` delimiters, trailing prompt) is not
accepted by the execute-cycle completion condition of the read loop, and the
test's success check also rejects it, because both require the literal
substring `OK`. -/
theorem c2_okMarker_counterexample :
    debugComplete (frameResponse ['2'] []) = false ∧
      csharpStyleSuccess (frameResponse ['2'] []) = false ∧
      frameResponse ['2'] [] = ['2', '\x04', '\x04', '>'] := by
  refine ⟨by decide, by decide, by decide⟩

/-- C2, amended: the execute-cycle completion condition requires the literal
substring `OK` — for any buffer that contains neither `raw REPL` (the
raw-entry branch) nor `OK` (the execution branch), the read loop's break
condition is false, so an `OK`-less framed response is never accepted early
and is only returned when the deadline elapses. -/
theorem c2_exec_complete_requires_ok (buf : List Char)
    (hraw : ¬ ("raw REPL".toList) <:+: buf)
    (hok : ¬ ("OK".toList) <:+: buf) :
    debugComplete buf = false := by
  unfold debugComplete rawReplEntryComplete execOutputComplete
  rw [containsSub_eq_false _ _ hraw, containsSub_eq_false _ _ hok]
  simp

theorem c2_exec_complete_requires_ok_witness :
    debugComplete (frameResponse ['2'] []) = false :=
  c2_exec_complete_requires_ok (frameResponse ['2'] []) (by decide) (by decide)

/-- C4, counterexample: the buffer `"OK>"` contains no `0x04` delimiter at
all, yet the execute-cycle completion condition accepts it — acceptance does
not count two `0x04` delimiters. -/
theorem c4_two_delims_counterexample :
    execOutputComplete ("OK>".toList) = true ∧
      List.count '\x04' ("OK>".toList) = 0 := by
  refine ⟨by decide, by decide⟩

/-- C4, amended: the read loop accepts an execution response as soon as the
buffer contains `OK` together with at least one `0x04` or a `>` — it never
counts to two delimiters, and on deadline expiry it returns the accumulated
buffer (its only result shape), with no distinct incomplete-output outcome
separating one observed delimiter from none. -/
theorem c4_exec_accepts_one_delim (buf : List Char)
    (hok : ("OK".toList) <:+: buf)
    (hd : '\x04' ∈ buf ∨ '>' ∈ buf) :
    execOutputComplete buf = true := by
  have h1 : containsSub ("OK".toList) buf = true := (containsSub_iff _ _).mpr hok
  have h2 : (containsSub ("\x04".toList) buf || containsSub (">".toList) buf)
      = true := by
    rcases hd with hd | hd
    · have hx : containsSub ("\x04".toList) buf = true := by
        rw [containsSub_iff, show ("\x04".toList) = ['\x04'] from rfl,
          singleton_infix_iff_mem]
        exact hd
      rw [hx, Bool.true_or]
    · have hx : containsSub (">".toList) buf = true := by
        rw [containsSub_iff, show (">".toList) = ['>'] from rfl,
          singleton_infix_iff_mem]
        exact hd
      rw [hx, Bool.or_true]
  unfold execOutputComplete
  rw [h1, h2]
  rfl

theorem c4_exec_accepts_one_delim_witness :
    execOutputComplete ("OK\x04".toList) = true ∧
      List.count '\x04' ("OK\x04".toList) = 1 :=
  ⟨c4_exec_accepts_one_delim ("OK\x04".toList) (by decide) (Or.inl (by decide)),
    by decide⟩

theorem readLoop_filter_fails (c : List Char → Bool) (polls : List Poll) :
    ∀ buf, readLoop c buf (polls.filter (fun p => !(isFail p)))
      = readLoop c buf polls := by
  induction polls with
  | nil => intro buf; rfl
  | cons p rest ih =>
    intro buf
    cases p with
    | fail =>
      rw [show readLoop c buf (Poll.fail :: rest) = readLoop c buf rest from rfl]
      rw [show (Poll.fail :: rest).filter (fun p => !(isFail p))
        = rest.filter (fun p => !(isFail p)) by simp [List.filter_cons, isFail]]
      exact ih buf
    | data d =>
      rw [show (Poll.data d :: rest).filter (fun p => !(isFail p))
        = Poll.data d :: rest.filter (fun p => !(isFail p)) by
          simp [List.filter_cons, isFail]]
      by_cases hd : d.isEmpty
      · simp only [readLoop, hd, if_true]
        exact ih buf
      · by_cases hc : c (buf ++ d) = true
        · simp only [readLoop, hd, if_false, hc, if_true, Bool.false_eq_true]
        · simp only [readLoop, hd, if_false, hc, Bool.false_eq_true]
          exact ih (buf ++ d)

theorem readLoop_all_fail (c : List Char → Bool) (buf : List Char) :
    ∀ n, readLoop c buf (List.replicate n Poll.fail) = buf := by
  intro n
  induction n with
  | zero => rfl
  | succ m ih => rw [List.replicate_succ]; exact ih

/-- C5, counterexample: after a failing first poll the loop keeps polling
and accumulates later data into an ordinary buffer result (the failure is
swallowed and retried, not reported on the first failing poll), and a stream
of failing polls is indistinguishable from a silent no-data stream — the
read has only one result shape, a byte buffer, with no separate
channel-failure outcome. -/
theorem c5_io_failure_swallowed_counterexample :
    read_with_timeout [Poll.fail, Poll.data ['x']] = ['x'] ∧
      read_with_timeout [Poll.fail] = read_with_timeout [Poll.data []] := by
  refine ⟨by decide, by decide⟩

/-- C5, amended: the observed read loop swallows every failing poll — its
result is unchanged if all failing polls are deleted from the stream (each
is caught by the bare `except:`, sleeps, and retries), and a stream of
nothing but failures runs to the deadline and returns the buffer unchanged,
exactly like a no-data timeout; success and timeout both yield a plain
buffer and an IO failure is never reported. -/
theorem c5_failing_polls_swallowed (c : List Char → Bool) (buf : List Char)
    (polls : List Poll) (n : Nat) :
    readLoop c buf (polls.filter (fun p => !(isFail p))) = readLoop c buf polls
      ∧ readLoop c buf (List.replicate n Poll.fail) = buf :=
  ⟨readLoop_filter_fails c polls buf, readLoop_all_fail c buf n⟩

theorem bDataOf_cons (p : BlockingPoll) (rest : List BlockingPoll) :
    bDataOf (p :: rest) = bPollData p ++ bDataOf rest := by
  simp [bDataOf]

theorem readLoopBlocking_no_block (c : List Char → Bool)
    (polls : List BlockingPoll) :
    ∀ buf, (∀ p ∈ polls, p ≠ BlockingPoll.block) →
      (∀ k, k ≤ polls.length → c (buf ++ bDataOf (polls.take k)) = false) →
      readLoopBlocking c buf polls = some (buf ++ bDataOf polls) := by
  induction polls with
  | nil =>
    intro buf _ _
    simp [readLoopBlocking, bDataOf]
  | cons p rest ih =>
    intro buf hnb h
    cases p with
    | block => exact absurd rfl (hnb BlockingPoll.block (by simp))
    | fail =>
      rw [show readLoopBlocking c buf (BlockingPoll.fail :: rest)
        = readLoopBlocking c buf rest from rfl, bDataOf_cons,
        show bPollData BlockingPoll.fail = [] from rfl, List.nil_append]
      refine ih buf (fun q hq => hnb q (by simp [hq])) ?_
      intro k hk
      have := h (k + 1) (by simpa using Nat.succ_le_succ hk)
      rwa [List.take_succ_cons, bDataOf_cons,
        show bPollData BlockingPoll.fail = [] from rfl, List.nil_append] at this
    | data d =>
      by_cases hd : d.isEmpty
      · have hde : d = [] := List.isEmpty_iff.mp hd
        subst hde
        rw [show readLoopBlocking c buf (BlockingPoll.data [] :: rest)
          = readLoopBlocking c buf rest from by simp [readLoopBlocking],
          bDataOf_cons, show bPollData (BlockingPoll.data []) = [] from rfl,
          List.nil_append]
        refine ih buf (fun q hq => hnb q (by simp [hq])) ?_
        intro k hk
        have := h (k + 1) (by simpa using Nat.succ_le_succ hk)
        rwa [List.take_succ_cons, bDataOf_cons,
          show bPollData (BlockingPoll.data []) = [] from rfl,
          List.nil_append] at this
      · have hc : c (buf ++ d) = false := by
          have := h 1 (by simp)
          simpa [bDataOf_cons, bDataOf] using this
        rw [show readLoopBlocking c buf (BlockingPoll.data d :: rest)
          = readLoopBlocking c (buf ++ d) rest from by
            simp [readLoopBlocking, hd, hc]]
        rw [bDataOf_cons, show bPollData (BlockingPoll.data d) = d from rfl,
          ← List.append_assoc]
        refine ih (buf ++ d) (fun q hq => hnb q (by simp [hq])) ?_
        intro k hk
        have := h (k + 1) (by simpa using Nat.succ_le_succ hk)
        rw [List.take_succ_cons, bDataOf_cons,
          show bPollData (BlockingPoll.data d) = d from rfl] at this
        rwa [List.append_assoc]

/-- C6, counterexample: `debug_csharp_protocol.py` never puts the channel
into non-blocking mode, so a read on an open channel with no data available
blocks and the deadline guard is never re-checked.  On a stream that
delivers `hi` (whose accumulated bytes never satisfy the completion
condition) and then starves, the loop never returns at all — it neither
carries the accumulated bytes back to the caller nor respects any deadline
bound, and the same holds for a stream that starves immediately. -/
theorem c6_blocked_read_counterexample :
    readLoopBlocking debugComplete []
        [BlockingPoll.data ['h', 'i'], BlockingPoll.block] = none ∧
      readLoopBlocking debugComplete [] [BlockingPoll.block] = none ∧
      debugComplete [] = false ∧ debugComplete ['h', 'i'] = false := by
  refine ⟨by decide, by decide, by decide, by decide⟩

/-- C6, amended: when every read call completes (delivers bytes, returns
empty, or raises) and no accumulated prefix of the channel's data satisfies
the completion predicate, the read loop returns the accumulated bytes at
the deadline (the end of the finite poll budget, one poll per interval).
The never-blocks bound does not hold in general: the deadline guard is
re-checked only after a read completes, and because the script leaves the
channel in blocking mode, a starved read on an open channel blocks the
caller indefinitely and nothing is ever returned. -/
theorem c6_deadline_between_completed_reads (c : List Char → Bool)
    (polls : List BlockingPoll) :
    (∀ buf, (∀ p ∈ polls, p ≠ BlockingPoll.block) →
      (∀ k, k ≤ polls.length → c (buf ++ bDataOf (polls.take k)) = false) →
      readLoopBlocking c buf polls = some (buf ++ bDataOf polls)) ∧
    (∀ buf rest, readLoopBlocking c buf (BlockingPoll.block :: rest) = none) :=
  ⟨readLoopBlocking_no_block c polls, fun _ _ => rfl⟩

theorem c6_deadline_between_completed_reads_witness :
    readLoopBlocking rawReplEntryComplete []
        [BlockingPoll.data ['h', 'i'], BlockingPoll.fail] = some ['h', 'i'] ∧
      readLoopBlocking rawReplEntryComplete [] [BlockingPoll.block] = none := by
  constructor
  · have := (c6_deadline_between_completed_reads rawReplEntryComplete
      [BlockingPoll.data ['h', 'i'], BlockingPoll.fail]).1 []
      (by decide) (by decide)
    simpa [bDataOf, bPollData] using this
  · exact (c6_deadline_between_completed_reads rawReplEntryComplete []).2 [] []

theorem takeWhile_append_all {p : Char → Bool} {l1 : List Char}
    (l2 : List Char) (h : ∀ x ∈ l1, p x = true) :
    (l1 ++ l2).takeWhile p = l1 ++ l2.takeWhile p := by
  induction l1 with
  | nil => simp
  | cons c rest ih =>
    have hc : p c = true := h c (by simp)
    simp only [List.cons_append, List.takeWhile_cons, hc, if_true]
    rw [ih (fun x hx => h x (by simp [hx]))]

theorem dropWhile_append_all {p : Char → Bool} {l1 : List Char}
    (l2 : List Char) (h : ∀ x ∈ l1, p x = true) :
    (l1 ++ l2).dropWhile p = l2.dropWhile p := by
  induction l1 with
  | nil => simp
  | cons c rest ih =>
    have hc : p c = true := h c (by simp)
    simp only [List.cons_append, List.dropWhile_cons, hc, if_true]
    exact ih (fun x hx => h x (by simp [hx]))

theorem stderrSlice_frame (out err : List Char)
    (hout : '\x04' ∉ out) (herr : '\x04' ∉ err) :
    stderrSlice (frameResponse out err) = err := by
  have hfr : frameResponse out err
      = out ++ '\x04' :: (err ++ '\x04' :: ['>']) := by
    simp [frameResponse]
  have hA : ∀ x ∈ out, (x != '\x04') = true := by
    intro x hx
    exact bne_iff_ne.mpr (fun hxe => hout (hxe ▸ hx))
  have hB : ∀ x ∈ err, (x != '\x04') = true := by
    intro x hx
    exact bne_iff_ne.mpr (fun hxe => herr (hxe ▸ hx))
  unfold stderrSlice
  rw [hfr, dropWhile_append_all _ hA]
  simp only [List.dropWhile_cons, bne_self_eq_false, if_false,
    Bool.false_eq_true, List.drop_succ_cons, List.drop_zero]
  rw [takeWhile_append_all _ hB]
  simp [List.takeWhile_cons]

/-- C3, confirmed (spec-modelled classifier): the classified error of an
execution result depends only on the error-channel slice between the two
`0x04` delimiters — two responses with identical stderr slices classify
identically, changing only the stdout of a well-framed response never
changes the classification, an empty stderr slice yields no classified
error regardless of stdout, and in particular a response whose stdout is
`The test failed successfully - this is expected behavior` with empty
stderr yields none. -/
theorem c3_classification_ignores_stdout :
    (∀ r1 r2 : List Char, stderrSlice r1 = stderrSlice r2 →
        classifiedErrorOf r1 = classifiedErrorOf r2) ∧
      (∀ r : List Char, stderrSlice r = [] → classifiedErrorOf r = none) ∧
      (∀ out out2 err : List Char, '\x04' ∉ out → '\x04' ∉ out2 →
        '\x04' ∉ err →
        classifiedErrorOf (frameResponse out err)
          = classifiedErrorOf (frameResponse out2 err)) ∧
      classifiedErrorOf
        (frameResponse
          ("The test failed successfully - this is expected behavior".toList)
          []) = none := by
  refine ⟨?_, ?_, ?_, ?_⟩
  · intro r1 r2 h
    unfold classifiedErrorOf
    rw [h]
  · intro r h
    unfold classifiedErrorOf
    rw [h]
    rfl
  · intro out out2 err h1 h2 h3
    unfold classifiedErrorOf
    rw [stderrSlice_frame out err h1 h3, stderrSlice_frame out2 err h2 h3]
  · unfold classifiedErrorOf
    rw [stderrSlice_frame _ _ (by decide) (by decide)]
    rfl

theorem c3_classification_ignores_stdout_witness :
    classifiedErrorOf (frameResponse ['A'] ['E'])
      = classifiedErrorOf (frameResponse ['B'] ['E']) :=
  c3_classification_ignores_stdout.2.2.1 ['A'] ['B'] ['E']
    (by decide) (by decide) (by decide)

theorem foldl_adjust_bounds (events : List ChunkAdjust) :
    ∀ s, 64 ≤ s → s ≤ 512 →
      64 ≤ events.foldl (fun s e => applyAdjust e s) s ∧
        events.foldl (fun s e => applyAdjust e s) s ≤ 512 := by
  induction events with
  | nil => intro s h1 h2; exact ⟨h1, h2⟩
  | cons e rest ih =>
    intro s h1 h2
    rw [List.foldl_cons]
    refine ih (applyAdjust e s) ?_ ?_ <;> cases e <;> simp [applyAdjust] <;> omega

theorem initialChunkSize_bounds (n : Nat) :
    64 ≤ initialChunkSize n ∧ initialChunkSize n ≤ 512 := by
  unfold initialChunkSize
  by_cases h1 : n ≤ 256 <;> by_cases h2 : n ≤ 1024 <;> simp [h1, h2]

/-- C7, confirmed (grow and shrink steps spec-modelled): the chunk size is
within `[64, 512]` in every reachable state — initialization maps a payload
of at most 256 bytes to 64-byte chunks, at most 1024 bytes to 256-byte
chunks and larger payloads to 512-byte chunks (all within bounds), and any
sequence of post-chunk grow or shrink adjustments applied from there stays
within `64 ≤ size ≤ 512`. -/
theorem c7_chunk_size_in_bounds (payloadLen : Nat) (events : List ChunkAdjust) :
    (64 ≤ chunkSizeAfter payloadLen events
        ∧ chunkSizeAfter payloadLen events ≤ 512)
      ∧ (payloadLen ≤ 256 → initialChunkSize payloadLen = 64)
      ∧ (256 < payloadLen → payloadLen ≤ 1024 →
          initialChunkSize payloadLen = 256)
      ∧ (1024 < payloadLen → initialChunkSize payloadLen = 512) := by
  refine ⟨?_, ?_, ?_, ?_⟩
  · exact foldl_adjust_bounds events (initialChunkSize payloadLen)
      (initialChunkSize_bounds payloadLen).1 (initialChunkSize_bounds payloadLen).2
  · intro h; simp [initialChunkSize, h]
  · intro h1 h2
    have hn : ¬ payloadLen ≤ 256 := by omega
    simp [initialChunkSize, hn, h2]
  · intro h
    have hn1 : ¬ payloadLen ≤ 256 := by omega
    have hn2 : ¬ payloadLen ≤ 1024 := by omega
    simp [initialChunkSize, hn1, hn2]

theorem c7_chunk_size_in_bounds_witness :
    (64 ≤ chunkSizeAfter 100 [ChunkAdjust.grow]
        ∧ chunkSizeAfter 100 [ChunkAdjust.grow] ≤ 512)
      ∧ initialChunkSize 100 = 64 :=
  ⟨(c7_chunk_size_in_bounds 100 [ChunkAdjust.grow]).1,
    (c7_chunk_size_in_bounds 100 [ChunkAdjust.grow]).2.1 (by decide)⟩

/-- C9, counterexample: not every observed protocol read runs with a
deadline at or above its category floor — the enter-raw read of
`test_subprocess_fix.py` runs with a 1000 ms deadline against the 2000 ms
prompt floor, and the execution read of `debug_csharp_protocol.py` runs
with 2000 ms against the 10000 ms execution floor. -/
theorem c9_floor_counterexample :
    ¬ (∀ r ∈ observedReads, floorMs r.category ≤ r.deadlineMs) := by
  decide

/-- C9, amended: the per-category floors are the fixed defaults (prompt
2 s, execution 10 s, file transfer 30 s, soft reboot 15 s), and the
enter-raw read of `debug_csharp_protocol.py` does run at the 2 s prompt
floor, but deadlines are hard-coded per call site with no clamping: the
enter-raw read of `test_subprocess_fix.py` runs at 1 s, below the prompt
floor, and the execution read of `debug_csharp_protocol.py` runs at 2 s,
below the execution floor. -/
theorem c9_observed_deadlines :
    floorMs TimeoutCategory.prompt = 2000 ∧
      (⟨TimeoutCategory.prompt, 2000⟩ : ObservedRead) ∈ observedReads ∧
      (⟨TimeoutCategory.prompt, 1000⟩ : ObservedRead) ∈ observedReads ∧
      1000 < floorMs TimeoutCategory.prompt ∧
      (⟨TimeoutCategory.execution, 2000⟩ : ObservedRead) ∈ observedReads ∧
      2000 < floorMs TimeoutCategory.execution := by
  refine ⟨rfl, by decide, by decide, by decide, by decide, by decide⟩

theorem drainGo_eq (polls : List DrainPoll) :
    ∀ acc, drainGo acc polls
      = acc ++ ((polls.takeWhile liveData).map pollChunk).flatten := by
  induction polls with
  | nil => intro acc; simp [drainGo]
  | cons p rest ih =>
    intro acc
    cases p with
    | wouldBlock => simp [drainGo, List.takeWhile_cons, liveData]
    | data d =>
      by_cases hd : d.isEmpty
      · have hde : d = [] := List.isEmpty_iff.mp hd
        subst hde
        simp [drainGo, List.takeWhile_cons, liveData]
      · simp only [drainGo, hd, if_false, List.takeWhile_cons, liveData,
          Bool.not_eq_true', Bool.false_eq_true]
        rw [ih (acc ++ d)]
        simp [hd, pollChunk]

set_option maxRecDepth 4000

theorem b64val_b64char : ∀ n, n < 64 → b64val (b64char n) = n := by decide

theorem b64char_ne_pad : ∀ n, n < 64 → ¬ (b64char n = '=') := by decide

theorem b64_roundtrip (l : List Nat) (h : ∀ x ∈ l, x < 256) :
    b64decodeChars (b64encodeBytes l) = l := by
  match l with
  | [] => rfl
  | [a] =>
    have ha : a < 256 := h a (by simp)
    show b64decodeChars [b64char (a / 4), b64char (a % 4 * 16), '=', '=']
      = [a]
    rw [b64decodeChars, if_pos rfl]
    rw [b64val_b64char (a / 4) (by omega),
      b64val_b64char (a % 4 * 16) (by omega)]
    have e1 : a / 4 * 4 + a % 4 * 16 / 16 = a := by omega
    rw [e1]
  | [a, b] =>
    have ha : a < 256 := h a (by simp)
    have hb : b < 256 := h b (by simp)
    show b64decodeChars [b64char (a / 4), b64char (a % 4 * 16 + b / 16),
      b64char (b % 16 * 4), '='] = [a, b]
    rw [b64decodeChars, if_neg (b64char_ne_pad (b % 16 * 4) (by omega)),
      if_pos rfl]
    rw [b64val_b64char (a / 4) (by omega),
      b64val_b64char (a % 4 * 16 + b / 16) (by omega),
      b64val_b64char (b % 16 * 4) (by omega)]
    have e1 : a / 4 * 4 + (a % 4 * 16 + b / 16) / 16 = a := by omega
    have e2 : (a % 4 * 16 + b / 16) % 16 * 16 + b % 16 * 4 / 4 = b := by omega
    rw [e1, e2]
  | a :: b :: c :: rest =>
    have ha : a < 256 := h a (by simp)
    have hb : b < 256 := h b (by simp)
    have hc : c < 256 := h c (by simp)
    have IH : b64decodeChars (b64encodeBytes rest) = rest :=
      b64_roundtrip rest (fun x hx => h x (by simp [hx]))
    show b64decodeChars (b64char (a / 4) :: b64char (a % 4 * 16 + b / 16) ::
      b64char (b % 16 * 4 + c / 64) :: b64char (c % 64) ::
      b64encodeBytes rest) = a :: b :: c :: rest
    rw [b64decodeChars, if_neg (b64char_ne_pad (b % 16 * 4 + c / 64) (by omega)),
      if_neg (b64char_ne_pad (c % 64) (by omega))]
    rw [b64val_b64char (a / 4) (by omega),
      b64val_b64char (a % 4 * 16 + b / 16) (by omega),
      b64val_b64char (b % 16 * 4 + c / 64) (by omega),
      b64val_b64char (c % 64) (by omega)]
    rw [IH]
    have e1 : a / 4 * 4 + (a % 4 * 16 + b / 16) / 16 = a := by omega
    have e2 : (a % 4 * 16 + b / 16) % 16 * 16 + (b % 16 * 4 + c / 64) / 4 = b := by
      omega
    have e3 : (b % 16 * 4 + c / 64) % 4 * 64 + c % 64 = c := by omega
    rw [e1, e2, e3]
termination_by l.length
decreasing_by simp; omega

theorem chunkPayload_flatten (n : Nat) (l : List Nat) :
    (chunkPayload n l).flatten = l := by
  match n, l with
  | m, [] => simp [chunkPayload]
  | 0, x :: xs => simp [chunkPayload]
  | m + 1, x :: xs =>
    have IH := chunkPayload_flatten (m + 1) ((x :: xs).drop (m + 1))
    rw [chunkPayload, List.flatten_cons, IH, List.take_append_drop]
termination_by l.length
decreasing_by simp; omega

theorem chunkPayload_subset (n : Nat) (l : List Nat) :
    ∀ ch ∈ chunkPayload n l, ∀ x ∈ ch, x ∈ l := by
  match n, l with
  | m, [] => intro ch hch; simp [chunkPayload] at hch
  | 0, x :: xs =>
    intro ch hch y hy
    simp [chunkPayload] at hch
    subst hch
    exact hy
  | m + 1, x :: xs =>
    intro ch hch y hy
    rw [chunkPayload] at hch
    rcases List.mem_cons.mp hch with rfl | hch2
    · exact List.mem_of_mem_take hy
    · exact List.drop_subset (m + 1) (x :: xs)
        (chunkPayload_subset (m + 1) ((x :: xs).drop (m + 1)) ch hch2 y hy)
termination_by l.length
decreasing_by simp; omega

/-- C8, confirmed: for every byte payload (bytes below 256, any length,
including lengths not divisible by the chunk size) and every chunk size in
`{64, 256, 512}`, slicing the payload into chunks, base64-encoding each
chunk through the transfer path, then decoding and concatenating the chunks
reproduces the original payload exactly. -/
theorem c8_base64_chunk_roundtrip (payload : List Nat) (n : Nat)
    (hbytes : ∀ x ∈ payload, x < 256)
    (hn : n = 64 ∨ n = 256 ∨ n = 512) :
    ((chunkPayload n payload).map
        (fun ch => b64decodeChars (b64encodeBytes ch))).flatten = payload := by
  have hmap : (chunkPayload n payload).map
      (fun ch => b64decodeChars (b64encodeBytes ch))
        = (chunkPayload n payload).map id := by
    refine List.map_congr_left ?_
    intro ch hch
    exact b64_roundtrip ch
      (fun x hx => hbytes x (chunkPayload_subset n payload ch hch x hx))
  rw [hmap, List.map_id, chunkPayload_flatten]

theorem c8_base64_chunk_roundtrip_witness :
    ((chunkPayload 64 [0, 1, 2, 250, 255]).map
        (fun ch => b64decodeChars (b64encodeBytes ch))).flatten
      = [0, 1, 2, 250, 255] :=
  c8_base64_chunk_roundtrip [0, 1, 2, 250, 255] 64 (by decide) (Or.inl rfl)

/-- C10, confirmed: the best-effort drain is total with a single result
shape — for every channel state (queue of pending non-blocking reads) it
returns the concatenation of the nonempty chunks delivered before the first
empty read or `BlockingIOError`, and both an empty first read and an
immediate would-block end it normally with the empty result rather than an
error. -/
theorem c10_drain_total_returns_accumulated :
    (∀ polls, read_available polls
        = ((polls.takeWhile liveData).map pollChunk).flatten) ∧
      (∀ rest, read_available (DrainPoll.wouldBlock :: rest) = []) ∧
      (∀ rest, read_available (DrainPoll.data [] :: rest) = []) := by
  refine ⟨?_, ?_, ?_⟩
  · intro polls
    simpa using drainGo_eq polls []
  · intro rest; rfl
  · intro rest; rfl

end BelayProtocol
